import Mathlib

/-!
Shallow embedding of the PI-Analytics-Dashboard core pipeline
(src/modules/preprocessing.py, src/modules/wc_analytics.py,
src/modules/driver_analytics.py) together with proofs about it.

Modelling conventions:
* a pandas dataframe of tasks is a `List` of row records, in row order;
* a nullable cell is an `Option`; `none` plays the role of `NaN`/`NULL`;
* raw text cells that get parsed character by character are `List Char`;
* timestamps are whole seconds since the epoch (`Nat`); `pd.to_datetime`
  is the identity under this representation, `.dt.floor('d')` is
  `t / 86400 * 86400`, and calendar fields are recovered with the
  standard civil-from-days conversion;
* Python code that can raise is embedded in `Except String`;
* Python `float` arithmetic on small integer data is modelled exactly:
  `int(sum/len)` becomes `Nat` floor division, and a ratio that the
  source formats with an f-string is carried as its exact
  numerator/denominator pair.
-/

/-! ### Python primitives used by the pipeline -/

/-- Accumulates the decimal value of a digit run; any non-digit character
makes the whole parse fail, as `int()` does. -/
def decDigitsAux : List Char → Nat → Option Nat
  | [], acc => some acc
  | c :: cs, acc =>
      if '0' ≤ c ∧ c ≤ '9' then
        decDigitsAux cs (acc * 10 + (c.toNat - '0'.toNat))
      else
        none

/-- Python `int(s)` on a string: optional surrounding spaces, an optional
sign, then a nonempty run of decimal digits; anything else raises
`ValueError`, which is `none` here. -/
def pyIntOfChars (cs : List Char) : Option Int :=
  let cs := (((cs.dropWhile (· = ' ')).reverse.dropWhile (· = ' ')).reverse)
  match cs with
  | [] => none
  | '+' :: rest => if rest.isEmpty then none else (decDigitsAux rest 0).map Int.ofNat
  | '-' :: rest => if rest.isEmpty then none else (decDigitsAux rest 0).map (fun n => -(n : Int))
  | rest => (decDigitsAux rest 0).map Int.ofNat

/-- Python `str.split(sep)` for a one-character separator: always returns
at least one (possibly empty) piece. -/
def splitOnChar (sep : Char) : List Char → List (List Char)
  | [] => [[]]
  | c :: cs =>
      let r := splitOnChar sep cs
      if c = sep then [] :: r
      else
        match r with
        | [] => [[c]]
        | g :: gs => (c :: g) :: gs

/-! ### src/modules/preprocessing.py -/

/-- Faithful embedding of `_convert_ms_to_s`: `none` input is the `np.nan`
branch and yields a missing value; otherwise the text is split on `':'`,
`int(temp[0])` and `int(temp[1].split('.')[0])` are taken, each of which
can raise (`Except.error`), and the result is `min * 60 + sec`. -/
def convert_ms_to_s (ms : Option (List Char)) : Except String (Option Int) :=
  match ms with
  | none => Except.ok none
  | some s =>
      match splitOnChar ':' s with
      | [] => Except.error "IndexError"
      | t0 :: rest =>
          match pyIntOfChars t0 with
          | none => Except.error "ValueError"
          | some mn =>
              match rest with
              | [] => Except.error "IndexError"
              | t1 :: _ =>
                  match pyIntOfChars ((splitOnChar '.' t1).headD []) with
                  | none => Except.error "ValueError"
                  | some sec => Except.ok (some (mn * 60 + sec))

/-- Raw queried row, one per task, with every projected column nullable
(the columns of the SQL projection in wc_data.py plus the raw
`Duration (m:s)` text that preprocessing consumes). -/
structure RawTask where
  taskNo : Option Int
  driver : Option String
  forklift : Option String
  workcenter : Option String
  partNo : Option String
  status : Option String
  name : Option String
  creationTime : Option Nat
  startTime : Option Nat
  endTime : Option Nat
  distance : Option Int
  durationMS : Option (List Char)
deriving DecidableEq

/-- Test used by `tasks.dropna()`: a row survives iff no cell is null. -/
def allPresent (r : RawTask) : Bool :=
  r.taskNo.isSome && r.driver.isSome && r.forklift.isSome && r.workcenter.isSome &&
  r.partNo.isSome && r.status.isSome && r.name.isSome && r.creationTime.isSome &&
  r.startTime.isSome && r.endTime.isSome && r.distance.isSome && r.durationMS.isSome

/-- Row of the canonical preprocessed Task Table (columns after renaming,
with the derived `Creation Date` and `Queue Time` columns inserted). -/
structure TaskRow where
  taskNo : Int
  driver : String
  forklift : String
  workcenter : String
  partNo : String
  status : String
  taskType : String
  creationTime : Nat
  creationDate : Nat
  startTime : Nat
  endTime : Nat
  queueTime : Int
  duration : Int
  distance : Int
deriving DecidableEq

/-- Models `.dt.floor('d')` on a seconds-since-epoch timestamp. -/
def floorDay (t : Nat) : Nat := t / 86400 * 86400

/-- Builds a typed row from a raw row that survived `dropna()` (so every
`getD` default is unreachable) and its parsed duration.  A parsed duration
of `none` is represented by `0`, a value that violates the lower outlier
bound exactly as a `NaN >= 10` comparison evaluates to `False`. -/
def buildTask (r : RawTask) (dur : Option Int) : TaskRow :=
  { taskNo := r.taskNo.getD 0
    driver := r.driver.getD ""
    forklift := r.forklift.getD ""
    workcenter := r.workcenter.getD ""
    partNo := r.partNo.getD ""
    status := r.status.getD ""
    taskType := r.name.getD ""
    creationTime := r.creationTime.getD 0
    creationDate := floorDay (r.creationTime.getD 0)
    startTime := r.startTime.getD 0
    endTime := r.endTime.getD 0
    queueTime := (r.startTime.getD 0 : Int) - (r.creationTime.getD 0 : Int)
    duration := dur.getD 0
    distance := r.distance.getD 0 }

/-- Embedding of `_remove_outlier_tasks`: the three successive boolean
filters on `Duration`, `Distance` and `Queue Time`. -/
def remove_outlier_tasks (tasks : List TaskRow) : List TaskRow :=
  let t1 := tasks.filter (fun t => decide (10 ≤ t.duration ∧ t.duration ≤ 3600))
  let t2 := t1.filter (fun t => decide (10 ≤ t.distance ∧ t.distance ≤ 3600))
  t2.filter (fun t => decide (t.queueTime ≤ 4500))

/-- Embedding of `preprocess_task_data`: drop nulls, rename (a no-op on
this record representation), drop the deprecated `Part Return` task type,
parse the duration column (any parse failure aborts the whole call, since
the exception of `.apply(_convert_ms_to_s)` propagates), convert the time
columns (identity here), derive `Creation Date` and `Queue Time`, and
apply the outlier filter. -/
def preprocess_task_data (tasks : List RawTask) : Except String (List TaskRow) :=
  match ((tasks.filter allPresent).filter (fun r => r.name != some "Part Return")).mapM
      (fun r => (convert_ms_to_s r.durationMS).map (fun dur => buildTask r dur)) with
  | Except.error e => Except.error e
  | Except.ok rows => Except.ok (remove_outlier_tasks rows)

/-- Outlier bounds of `_remove_outlier_tasks`, as the spec states them. -/
def inBounds (t : TaskRow) : Prop :=
  10 ≤ t.duration ∧ t.duration ≤ 3600 ∧
  10 ≤ t.distance ∧ t.distance ≤ 3600 ∧
  t.queueTime ≤ 4500

instance (t : TaskRow) : Decidable (inBounds t) := by
  unfold inBounds; infer_instance

/-! ### Claim C1 -/

theorem mem_remove_outlier_tasks (l : List TaskRow) (t : TaskRow) :
    t ∈ remove_outlier_tasks l ↔ t ∈ l ∧ inBounds t := by
  simp only [remove_outlier_tasks, List.mem_filter, decide_eq_true_eq, inBounds]
  tauto

/-- C1: after preprocessing, every row of the output Task Table satisfies
`10 ≤ duration ≤ 3600`, `10 ≤ distance ≤ 3600` and `queue_time ≤ 4500`;
a row violating a bound is absent from the output entirely (the outlier
filter keeps a row unchanged or drops it, it never clamps a value). -/
theorem outlier_rows_dropped_never_clamped (l : List TaskRow) (t : TaskRow)
    (raw : List RawTask) (out : List TaskRow)
    (hp : preprocess_task_data raw = Except.ok out) :
    (t ∈ remove_outlier_tasks l ↔ t ∈ l ∧ inBounds t) ∧ (∀ u ∈ out, inBounds u) := by
  refine ⟨mem_remove_outlier_tasks l t, ?_⟩
  intro u hu
  unfold preprocess_task_data at hp
  split at hp
  · exact absurd hp (by simp)
  · rename_i rows _
    rw [Except.ok.injEq] at hp
    subst hp
    exact ((mem_remove_outlier_tasks rows u).mp hu).2

/-- C1 witness input: a fully populated raw row whose duration text
"1:05.230" parses to 65 seconds and whose fields satisfy every bound. -/
def exRawGood : RawTask :=
  { taskNo := some 1, driver := some "A", forklift := some "F1",
    workcenter := some "Assembly 1", partNo := some "74110-T20-A000-HCM",
    status := some "Completed", name := some "Replenishment",
    creationTime := some 1000, startTime := some 1500, endTime := some 2000,
    distance := some 50, durationMS := some ['1', ':', '0', '5', '.', '2', '3', '0'] }

theorem outlier_rows_dropped_never_clamped_witness :
    preprocess_task_data [exRawGood] = Except.ok [buildTask exRawGood (some 65)] ∧
    ((buildTask exRawGood (some 65) ∈ remove_outlier_tasks [buildTask exRawGood (some 65)] ↔
        buildTask exRawGood (some 65) ∈ [buildTask exRawGood (some 65)] ∧
          inBounds (buildTask exRawGood (some 65))) ∧
      ∀ u ∈ [buildTask exRawGood (some 65)], inBounds u) :=
  ⟨rfl, outlier_rows_dropped_never_clamped [buildTask exRawGood (some 65)]
    (buildTask exRawGood (some 65)) [exRawGood] [buildTask exRawGood (some 65)] rfl⟩

/-! ### Claim C2 -/

/-- Success test of an embedded Python computation: `true` iff it did not
raise. -/
def exOk {α : Type} : Except String α → Bool
  | Except.ok _ => true
  | Except.error _ => false

theorem exOk_map {α β : Type} (g : α → β) (e : Except String α) :
    exOk (e.map g) = exOk e := by
  cases e <;> rfl

theorem mapM_not_ok_of_mem {α β : Type} (f : α → Except String β) (l : List α) (a : α)
    (ha : a ∈ l) (hf : exOk (f a) = false) : exOk (l.mapM f) = false := by
  induction l with
  | nil => cases ha
  | cons x xs ih =>
    rw [List.mapM_cons]
    rcases List.mem_cons.mp ha with rfl | hmem
    · rcases hfa : f a with e | b
      · simp [Bind.bind, Except.bind, exOk]
      · rw [hfa] at hf; simp [exOk] at hf
    · rcases hfx : f x with e | b
      · simp [Bind.bind, Except.bind, exOk]
      · have h := ih hmem
        rcases hxs : xs.mapM f with e | bs
        · simp [Bind.bind, Except.bind, exOk]
        · rw [hxs] at h; simp [exOk] at h

/-- C2 (amended): a raw row with no null field and a non-deprecated task
type whose duration text `_convert_ms_to_s` cannot parse makes the whole
`preprocess_task_data` call raise — the error propagates to the caller
instead of the row being silently excluded.  (Only a null duration is
treated as missing, and such a row is already removed by `dropna()`.) -/
theorem malformed_duration_propagates (raw : List RawTask) (r : RawTask)
    (hmem : r ∈ raw) (hpres : allPresent r = true)
    (htype : (r.name != some "Part Return") = true)
    (hbad : exOk (convert_ms_to_s r.durationMS) = false) :
    exOk (preprocess_task_data raw) = false := by
  unfold preprocess_task_data
  have hk : r ∈ (raw.filter allPresent).filter (fun r => r.name != some "Part Return") :=
    List.mem_filter.mpr ⟨List.mem_filter.mpr ⟨hmem, hpres⟩, htype⟩
  have hfail : exOk (((raw.filter allPresent).filter
      (fun r => r.name != some "Part Return")).mapM
        (fun r => (convert_ms_to_s r.durationMS).map (fun dur => buildTask r dur))) = false :=
    mapM_not_ok_of_mem _ _ r hk (by rw [exOk_map]; exact hbad)
  split
  · rfl
  · rename_i rows heq
    rw [heq] at hfail
    simp [exOk] at hfail

/-- C2 counterexample input: duration text "12" contains no ':', so
`int(temp[1].split('.')[0])` hits a missing index and raises. -/
def exRawNoColon : RawTask :=
  { taskNo := some 1, driver := some "A", forklift := some "F1",
    workcenter := some "Assembly 1", partNo := some "P-1",
    status := some "Completed", name := some "Replenishment",
    creationTime := some 1000, startTime := some 1200, endTime := some 1400,
    distance := some 50, durationMS := some ['1', '2'] }

/-- C2 counterexample: on a table holding one well-populated row whose
duration text is the unparsable "12", preprocessing raises (no Task Table
is returned), contradicting the claim that the row is excluded and no
error reaches the caller. -/
theorem malformed_duration_counterexample :
    exOk (preprocess_task_data [exRawNoColon]) = false := by rfl

/-- C2 witness input: duration text "abc" makes `int(temp[0])` raise. -/
def exRawAbc : RawTask :=
  { taskNo := some 2, driver := some "B", forklift := some "F2",
    workcenter := some "Assembly 2", partNo := some "P-2",
    status := some "Completed", name := some "Replenishment",
    creationTime := some 1000, startTime := some 1200, endTime := some 1400,
    distance := some 50, durationMS := some ['a', 'b', 'c'] }

theorem malformed_duration_propagates_witness :
    exRawAbc ∈ [exRawAbc] ∧ allPresent exRawAbc = true ∧
    (exRawAbc.name != some "Part Return") = true ∧
    exOk (convert_ms_to_s exRawAbc.durationMS) = false ∧
    exOk (preprocess_task_data [exRawAbc]) = false :=
  ⟨List.mem_singleton.mpr rfl, rfl, rfl, rfl,
    malformed_duration_propagates [exRawAbc] exRawAbc (List.mem_singleton.mpr rfl) rfl rfl rfl⟩

/-! ### src/modules/wc_analytics.py and driver_analytics.py, `_parse_task_info`
(the two copies are textually identical, so one embedding covers both) -/

/-- Character class `[\d+]` of the lookbehind: a decimal digit or `'+'`. -/
def isDigitOrPlus (c : Char) : Bool := c.isDigit || c == '+'

/-- Scanner for `re.search(r'(?<=[\d+]. ).*', s)`: `a b c` is the sliding
three-character window just before the current position and `rest` the
remainder.  The fixed-width lookbehind asks for `[\d+]`, then any
non-newline character (`.`), then a space; at the first position where it
holds, `.*` greedily matches the remainder up to a newline.  `re.search`
tries positions left to right, so the first hit wins. -/
def lookbehind (a b c : Char) : Bool := isDigitOrPlus a && b ≠ '\n' && c = ' '

def searchName (a b c : Char) (rest : List Char) : Option (List Char) :=
  if lookbehind a b c then
    some (rest.takeWhile (· ≠ '\n'))
  else
    match rest with
    | [] => none
    | d :: ds => searchName b c d ds

theorem searchName_pos (a b c : Char) (rest : List Char) (h : lookbehind a b c = true) :
    searchName a b c rest = some (rest.takeWhile (fun x => decide (x ≠ '\n'))) := by
  cases rest <;> simp [searchName, h]

theorem searchName_neg (a b c d : Char) (ds : List Char) (h : lookbehind a b c = false) :
    searchName a b c (d :: ds) = searchName b c d ds := by
  simp [searchName, h]

/-- Result of `re.search(r'(?<=[\d+]. ).*', s)`, or `none` when the regex
does not match anywhere (in Python the subsequent `[0]` then raises). -/
def findTaskName (cs : List Char) : Option (List Char) :=
  match cs with
  | a :: b :: c :: rest => searchName a b c rest
  | _ => none

/-- Result of `re.search(r'\d+', s)`: the first maximal run of decimal
digits, or `none` when the string has no digit. -/
def findRank (cs : List Char) : Option (List Char) :=
  match cs.dropWhile (fun c => !c.isDigit) with
  | [] => none
  | c :: cs2 => some (c :: cs2.takeWhile Char.isDigit)

/-- Embedding of `_parse_task_info`: extract the task name and the rank
from the display string; a regex miss makes the Python `[0]` indexing
raise, which is the error branch here. -/
def parse_task_info (task_info : String) : Except String (String × String) :=
  match findTaskName task_info.data with
  | none => Except.error "TypeError"
  | some nm =>
      match findRank task_info.data with
      | none => Except.error "TypeError"
      | some rk => Except.ok (String.mk nm, String.mk rk)

/-- Encoding used by both `get_top_10_tasks_dropdown` copies:
`str(rank) + '. ' + task` for the one-based rank. -/
def encodeRankedTask (rank : Nat) (partNo : String) : String :=
  toString rank ++ ". " ++ partNo

/-- Test for the claim's "begins with a literal ranked prefix": one or
more digits followed by `". "` at the start of the string. -/
def hasRankPrefix (s : String) : Bool :=
  (s.data.headD ' ').isDigit &&
  (match s.data.dropWhile Char.isDigit with
   | '.' :: ' ' :: _ => true
   | _ => false)

theorem takeWhile_no_newline {l : List Char} (h : '\n' ∉ l) :
    l.takeWhile (fun c => decide (c ≠ '\n')) = l := by
  induction l with
  | nil => rfl
  | cons c cs ih =>
    have hc : c ≠ '\n' := fun he => h (he ▸ List.mem_cons_self c cs)
    simp [List.takeWhile_cons, hc, ih (fun hm => h (List.mem_cons_of_mem c hm))]
    exact fun x hx he => h (he ▸ List.mem_cons_of_mem c hx)

/-! ### Claim C3 -/

/-- C3 (amended): for every rank in [1,10] and every part number that
does not begin with a literal ranked prefix and contains no newline
character, parsing the encoded display string recovers the original pair
(the rank coming back in its string form, as the source's regex match
returns it).  The newline restriction is forced: `.` in the pattern
matches every character except a newline. -/
theorem roundtrip_digit (d : Char) (part : String) (hd : isDigitOrPlus d = true)
    (hd2 : (!d.isDigit) = false) (hnl : '\n' ∉ part.data) :
    parse_task_info (String.mk (d :: '.' :: ' ' :: part.data)) =
      Except.ok (part, String.mk [d]) := by
  unfold parse_task_info
  rw [show (String.mk (d :: '.' :: ' ' :: part.data)).data = d :: '.' :: ' ' :: part.data from rfl]
  rw [show findTaskName (d :: '.' :: ' ' :: part.data) = searchName d '.' ' ' part.data from rfl]
  rw [searchName_pos d '.' ' ' part.data (by simp [lookbehind, hd])]
  rw [takeWhile_no_newline hnl]
  have hrank : findRank (d :: '.' :: ' ' :: part.data) = some [d] := by
    unfold findRank
    rw [List.dropWhile_cons]
    simp [hd2]
  rw [hrank]

theorem ranked_task_roundtrip (r : Nat) (part : String)
    (h1 : 1 ≤ r) (h2 : r ≤ 10) (hpre : hasRankPrefix part = false)
    (hnl : '\n' ∉ part.data) :
    parse_task_info (encodeRankedTask r part) = Except.ok (part, toString r) := by
  interval_cases r
  · rw [show encodeRankedTask 1 part = String.mk ('1' :: '.' :: ' ' :: part.data) from rfl,
        roundtrip_digit '1' part rfl rfl hnl]
    rfl
  · rw [show encodeRankedTask 2 part = String.mk ('2' :: '.' :: ' ' :: part.data) from rfl,
        roundtrip_digit '2' part rfl rfl hnl]
    rfl
  · rw [show encodeRankedTask 3 part = String.mk ('3' :: '.' :: ' ' :: part.data) from rfl,
        roundtrip_digit '3' part rfl rfl hnl]
    rfl
  · rw [show encodeRankedTask 4 part = String.mk ('4' :: '.' :: ' ' :: part.data) from rfl,
        roundtrip_digit '4' part rfl rfl hnl]
    rfl
  · rw [show encodeRankedTask 5 part = String.mk ('5' :: '.' :: ' ' :: part.data) from rfl,
        roundtrip_digit '5' part rfl rfl hnl]
    rfl
  · rw [show encodeRankedTask 6 part = String.mk ('6' :: '.' :: ' ' :: part.data) from rfl,
        roundtrip_digit '6' part rfl rfl hnl]
    rfl
  · rw [show encodeRankedTask 7 part = String.mk ('7' :: '.' :: ' ' :: part.data) from rfl,
        roundtrip_digit '7' part rfl rfl hnl]
    rfl
  · rw [show encodeRankedTask 8 part = String.mk ('8' :: '.' :: ' ' :: part.data) from rfl,
        roundtrip_digit '8' part rfl rfl hnl]
    rfl
  · rw [show encodeRankedTask 9 part = String.mk ('9' :: '.' :: ' ' :: part.data) from rfl,
        roundtrip_digit '9' part rfl rfl hnl]
    rfl
  · rw [show encodeRankedTask 10 part = String.mk ('1' :: '0' :: '.' :: ' ' :: part.data) from rfl]
    unfold parse_task_info
    rw [show (String.mk ('1' :: '0' :: '.' :: ' ' :: part.data)).data =
        '1' :: '0' :: '.' :: ' ' :: part.data from rfl]
    rw [show findTaskName ('1' :: '0' :: '.' :: ' ' :: part.data) =
        searchName '1' '0' '.' (' ' :: part.data) from rfl]
    rw [searchName_neg '1' '0' '.' ' ' part.data rfl]
    rw [searchName_pos '0' '.' ' ' part.data rfl]
    rw [takeWhile_no_newline hnl]
    rw [show findRank ('1' :: '0' :: '.' :: ' ' :: part.data) = some ['1', '0'] from rfl]
    rfl

/-- C3 counterexample input: a part number containing a newline. -/
def exNewlinePart : String := String.mk ['A', '\n', 'B']

/-- C3 counterexample: the part number "A\nB" starts with no ranked
prefix, yet parsing its rank-1 display string returns only "A" — the
`.*` of the source regex stops at the newline — so the round trip fails
for a part number the claim quantifies over. -/
theorem ranked_task_roundtrip_counterexample :
    hasRankPrefix exNewlinePart = false ∧
    parse_task_info (encodeRankedTask 1 exNewlinePart) = Except.ok ("A", "1") ∧
    ("A" : String) ≠ exNewlinePart := by
  exact ⟨rfl, rfl, by decide⟩

theorem ranked_task_roundtrip_witness :
    1 ≤ 2 ∧ 2 ≤ 10 ∧ hasRankPrefix "74110-T20-A000-HCM" = false ∧
    '\n' ∉ "74110-T20-A000-HCM".data ∧
    parse_task_info (encodeRankedTask 2 "74110-T20-A000-HCM") =
      Except.ok ("74110-T20-A000-HCM", toString 2) :=
  ⟨by decide, by decide, by decide, by decide,
    ranked_task_roundtrip 2 "74110-T20-A000-HCM" (by decide) (by decide) (by decide) (by decide)⟩

/-! ### pandas `unique()` order: distinct values by first appearance -/

/-- Worker for `uniqueFirst`; `seen` accumulates the values already
emitted. -/
def uniqueAux {α : Type} [DecidableEq α] (seen : List α) : List α → List α
  | [] => []
  | x :: xs => if x ∈ seen then uniqueAux seen xs else x :: uniqueAux (x :: seen) xs

/-- pandas `Series.unique()` (and the key order of a `groupby` with
`sort=False`, and of `value_counts` before sorting): the distinct values
in order of first appearance. -/
def uniqueFirst {α : Type} [DecidableEq α] (l : List α) : List α := uniqueAux [] l

/-- Index of the first occurrence of `a` in `l` (list length if absent). -/
def firstIdx {α : Type} [DecidableEq α] (a : α) (l : List α) : Nat :=
  l.findIdx (fun x => x == a)

theorem uniqueAux_sound {α : Type} [DecidableEq α] :
    ∀ (l seen : List α) (a : α), a ∈ uniqueAux seen l → a ∈ l ∧ a ∉ seen := by
  intro l
  induction l with
  | nil => intro seen a h; simp [uniqueAux] at h
  | cons x xs ih =>
    intro seen a h
    by_cases hx : x ∈ seen
    · rw [uniqueAux, if_pos hx] at h
      rcases ih seen a h with ⟨h1, h2⟩
      exact ⟨List.mem_cons_of_mem x h1, h2⟩
    · rw [uniqueAux, if_neg hx] at h
      rcases List.mem_cons.mp h with rfl | hmem
      · exact ⟨List.mem_cons_self _ _, hx⟩
      · rcases ih (x :: seen) a hmem with ⟨h1, h2⟩
        exact ⟨List.mem_cons_of_mem x h1, fun hs => h2 (List.mem_cons_of_mem x hs)⟩
  
theorem mem_uniqueAux {α : Type} [DecidableEq α] :
    ∀ (l seen : List α) (a : α), a ∈ l → a ∉ seen → a ∈ uniqueAux seen l := by
  intro l
  induction l with
  | nil => intro seen a h; cases h
  | cons x xs ih =>
    intro seen a h hs
    by_cases hx : x ∈ seen
    · rw [uniqueAux, if_pos hx]
      rcases List.mem_cons.mp h with rfl | hmem
      · exact absurd hx hs
      · exact ih seen a hmem hs
    · rw [uniqueAux, if_neg hx]
      rcases List.mem_cons.mp h with rfl | hmem
      · exact List.mem_cons_self _ _
      · by_cases hax : a = x
        · exact hax ▸ List.mem_cons_self _ _
        · exact List.mem_cons_of_mem x (ih (x :: seen) a hmem (by
            intro hcons
            rcases List.mem_cons.mp hcons with h1 | h2
            · exact hax h1
            · exact hs h2))

theorem mem_uniqueFirst {α : Type} [DecidableEq α] (l : List α) (a : α) :
    a ∈ uniqueFirst l ↔ a ∈ l := by
  constructor
  · exact fun h => (uniqueAux_sound l [] a h).1
  · exact fun h => mem_uniqueAux l [] a h (by simp)

theorem nodup_uniqueAux {α : Type} [DecidableEq α] :
    ∀ (l seen : List α), (uniqueAux seen l).Nodup := by
  intro l
  induction l with
  | nil => intro seen; simp [uniqueAux]
  | cons x xs ih =>
    intro seen
    by_cases hx : x ∈ seen
    · rw [uniqueAux, if_pos hx]; exact ih seen
    · rw [uniqueAux, if_neg hx]
      refine List.nodup_cons.mpr ⟨?_, ih (x :: seen)⟩
      intro hmem
      exact (uniqueAux_sound xs (x :: seen) x hmem).2 (List.mem_cons_self x seen)

theorem firstIdx_cons_self {α : Type} [DecidableEq α] (x : α) (l : List α) :
    firstIdx x (x :: l) = 0 := by
  unfold firstIdx
  rw [List.findIdx_cons]
  simp

theorem firstIdx_cons_ne {α : Type} [DecidableEq α] (x a : α) (l : List α) (h : a ≠ x) :
    firstIdx a (x :: l) = firstIdx a l + 1 := by
  unfold firstIdx
  rw [List.findIdx_cons]
  have hxa : (x == a) = false := beq_eq_false_iff_ne.mpr (fun he => h he.symm)
  simp [hxa]

theorem pairwise_firstIdx_uniqueAux {α : Type} [DecidableEq α] :
    ∀ (l seen : List α),
      List.Pairwise (fun a b => firstIdx a l < firstIdx b l) (uniqueAux seen l) := by
  intro l
  induction l with
  | nil => intro seen; simp [uniqueAux]
  | cons x xs ih =>
    intro seen
    by_cases hx : x ∈ seen
    · rw [uniqueAux, if_pos hx]
      refine List.Pairwise.imp_of_mem ?_ (ih seen)
      intro a b ha hb hab
      have hax : a ≠ x := fun he => (uniqueAux_sound xs seen a ha).2 (he ▸ hx)
      have hbx : b ≠ x := fun he => (uniqueAux_sound xs seen b hb).2 (he ▸ hx)
      rw [firstIdx_cons_ne x a xs hax, firstIdx_cons_ne x b xs hbx]
      omega
    · rw [uniqueAux, if_neg hx]
      refine List.Pairwise.cons ?_ ?_
      · intro b hb
        have hbx : b ≠ x :=
          fun he => (uniqueAux_sound xs (x :: seen) b hb).2 (he ▸ List.mem_cons_self x seen)
        rw [firstIdx_cons_self, firstIdx_cons_ne x b xs hbx]
        omega
      · refine List.Pairwise.imp_of_mem ?_ (ih (x :: seen))
        intro a b ha hb hab
        have hax : a ≠ x :=
          fun he => (uniqueAux_sound xs (x :: seen) a ha).2 (he ▸ List.mem_cons_self x seen)
        have hbx : b ≠ x :=
          fun he => (uniqueAux_sound xs (x :: seen) b hb).2 (he ▸ List.mem_cons_self x seen)
        rw [firstIdx_cons_ne x a xs hax, firstIdx_cons_ne x b xs hbx]
        omega

theorem pairwise_firstIdx_uniqueFirst {α : Type} [DecidableEq α] (l : List α) :
    List.Pairwise (fun a b => firstIdx a l < firstIdx b l) (uniqueFirst l) :=
  pairwise_firstIdx_uniqueAux l []

/-! ### src/modules/driver_analytics.py, `assign_driver_colors` -/

/-- Fixed palette `px.colors.qualitative.Plotly` (exactly 10 colours). -/
def plotlyPalette : List String :=
  ["#636EFA", "#EF553B", "#00CC96", "#AB63FA", "#FFA15A",
   "#19D3F3", "#FF6692", "#B6E880", "#FF97FF", "#FECB52"]

/-- Embedding of `assign_driver_colors`: the distinct drivers in order of
first appearance (`tasks['Driver'].unique()`); more than 10 of them raises
`ValueError`, otherwise driver number `idx` gets palette colour `idx`
(the insertion-ordered dict becomes an association list). -/
def assign_driver_colors (tasks : List TaskRow) : Except String (List (String × String)) :=
  let driver_names := uniqueFirst (tasks.map TaskRow.driver)
  if driver_names.length > 10 then
    Except.error "ValueError"
  else
    Except.ok (driver_names.enum.map (fun p => (p.2, plotlyPalette.getD p.1 "")))

/-! ### Claim C7 -/

/-- C7: with at most 10 distinct drivers, `assign_driver_colors` maps the
drivers, in order of first appearance, index by index onto the fixed
10-colour palette (so the assigned colours are pairwise distinct), and
with more than 10 distinct drivers it raises instead of wrapping around. -/
theorem assign_driver_colors_spec (tasks : List TaskRow) :
    ((uniqueFirst (tasks.map TaskRow.driver)).length > 10 →
        exOk (assign_driver_colors tasks) = false) ∧
    ((uniqueFirst (tasks.map TaskRow.driver)).length ≤ 10 →
      ∃ colors, assign_driver_colors tasks = Except.ok colors ∧
        (∀ i : Nat, colors[i]? = ((uniqueFirst (tasks.map TaskRow.driver))[i]?.map
            (fun d => (d, plotlyPalette.getD i "")))) ∧
        List.Pairwise (fun a b => a.2 ≠ b.2) colors) := by
  constructor
  · intro hlen
    unfold assign_driver_colors
    rw [if_pos hlen]
    rfl
  · intro hlen
    refine ⟨(uniqueFirst (tasks.map TaskRow.driver)).enum.map
      (fun p => (p.2, plotlyPalette.getD p.1 "")), ?_, ?_, ?_⟩
    · unfold assign_driver_colors
      rw [if_neg (by omega)]
    · intro i
      rw [List.getElem?_map, List.getElem?_enum]
      cases h : (uniqueFirst (tasks.map TaskRow.driver))[i]? <;> simp
    · rw [List.pairwise_iff_getElem]
      intro i j hi hj hij
      rw [List.getElem_map, List.getElem_map]
      have hle : (List.enum (uniqueFirst (tasks.map TaskRow.driver))).length =
          (uniqueFirst (tasks.map TaskRow.driver)).length := List.enum_length
      rw [List.length_map] at hi hj
      have hi10 : i < 10 := by omega
      have hj10 : j < 10 := by omega
      rw [List.getElem_enum, List.getElem_enum]
      have hpal : List.Pairwise (fun a b => a ≠ b) plotlyPalette := by decide
      simp only []
      rw [List.getD_eq_getElem plotlyPalette "" (by simp [plotlyPalette]; omega),
          List.getD_eq_getElem plotlyPalette "" (by simp [plotlyPalette]; omega)]
      exact (List.pairwise_iff_getElem.mp hpal) i j (by simp [plotlyPalette]; omega)
        (by simp [plotlyPalette]; omega) hij

/-- Dummy row used for concrete witness tables; only the fields a given
claim reads are relevant. -/
def mkDriverTask (d : String) : TaskRow :=
  { taskNo := 0, driver := d, forklift := "", workcenter := "Assembly 1", partNo := "P",
    status := "Completed", taskType := "Replenishment", creationTime := 0, creationDate := 0,
    startTime := 0, endTime := 0, queueTime := 0, duration := 60, distance := 50 }

def exTable3 : List TaskRow := ["A", "B", "C"].map mkDriverTask

def exTable11 : List TaskRow :=
  ["D1", "D2", "D3", "D4", "D5", "D6", "D7", "D8", "D9", "D10", "D11"].map mkDriverTask

theorem assign_driver_colors_witness :
    ((uniqueFirst (exTable11.map TaskRow.driver)).length > 10 ∧
      exOk (assign_driver_colors exTable11) = false) ∧
    ((uniqueFirst (exTable3.map TaskRow.driver)).length ≤ 10 ∧
      ∃ colors, assign_driver_colors exTable3 = Except.ok colors ∧
        (∀ i : Nat, colors[i]? = ((uniqueFirst (exTable3.map TaskRow.driver))[i]?.map
            (fun d => (d, plotlyPalette.getD i "")))) ∧
        List.Pairwise (fun a b => a.2 ≠ b.2) colors) :=
  ⟨⟨by decide, (assign_driver_colors_spec exTable11).1 (by decide)⟩,
   ⟨by decide, (assign_driver_colors_spec exTable3).2 (by decide)⟩⟩

/-! ### src/modules/wc_analytics.py and driver_analytics.py, `get_top_10_tasks_dropdown`
(identical in both modules; one embedding covers both call sites) -/

/-- Order in which `value_counts()` emits its tagged entries
`(first-appearance index, key, count)`: larger count first, and among
equal counts the smaller first-appearance index first.  This is what the
descending count sort does to keys that enter it in first-appearance
order. -/
def rankLe (a b : Nat × String × Nat) : Prop :=
  b.2.2 < a.2.2 ∨ (a.2.2 = b.2.2 ∧ a.1 ≤ b.1)

instance : DecidableRel rankLe := fun a b => by unfold rankLe; infer_instance

instance : IsTotal (Nat × String × Nat) rankLe := ⟨by intro a b; unfold rankLe; omega⟩

instance : IsTrans (Nat × String × Nat) rankLe := ⟨by intro a b c; unfold rankLe; omega⟩

/-- pandas `Series.value_counts()`: one `(value, count)` pair per distinct
value, most frequent first; the hash table underneath collects keys in
first-appearance order and the descending sort keeps that order between
equal counts, which is exactly a sort of the `(first-appearance index,
key, count)` triples by `rankLe`. -/
def value_counts (parts : List String) : List (String × Nat) :=
  (List.insertionSort rankLe ((uniqueFirst parts).enum.map
      (fun p => (p.1, p.2, parts.count p.2)))).map (fun q => (q.2.1, q.2.2))

/-- Rows of `tasks[tasks['Creation Date'] >= end_date]`, the windowed
filter every chart and table operation applies first. -/
def windowRows (tasks : List TaskRow) (end_date : Nat) : List TaskRow :=
  tasks.filter (fun t => decide (end_date ≤ t.creationDate))

/-- Column `df['Part No']` of the windowed rows, in table order. -/
def windowParts (tasks : List TaskRow) (end_date : Nat) : List String :=
  (windowRows tasks end_date).map TaskRow.partNo

/-- Embedding of `get_top_10_tasks_dropdown`: filter the window, count the
part numbers (`value_counts`), keep the 10 most common, overwrite entry
`rank` with `str(rank+1) + '. ' + task`, and return the array together
with its first element — `top_10_tasks[0]` raises `IndexError` when the
window holds no row. -/
def get_top_10_tasks_dropdown (tasks : List TaskRow) (end_date : Nat) :
    Except String (List String × String) :=
  match (((value_counts (windowParts tasks end_date)).take 10).map Prod.fst).enum.map
      (fun p => encodeRankedTask (p.1 + 1) p.2) with
  | [] => Except.error "IndexError"
  | e0 :: erest => Except.ok (e0 :: erest, e0)

/-- Strict "ranks higher" order the claim describes: strictly more
frequent, or equally frequent and encountered earlier in the table. -/
def ranksAbove (parts : List String) (a b : String) : Prop :=
  parts.count b < parts.count a ∨
    (parts.count a = parts.count b ∧ firstIdx a parts < firstIdx b parts)

/-! ### Claim C4 -/

/-- C4 (amended): whenever the windowed table is nonempty, the top-task
ranking returns at most 10 part numbers — pairwise ordered by strictly
descending window frequency with ties broken by first appearance in the
table, each present in the window, and no omitted part number ranking
above a kept one — encodes entry `i` as `"i+1. part"`, and returns the
rank-1 encoded string as the default selection.  The nonemptiness
hypothesis is what the amendment adds: on an empty window the source
raises `IndexError` (see the counterexample). -/
theorem top10_ranking_spec (tasks : List TaskRow) (end_date : Nat)
    (hne : windowParts tasks end_date ≠ []) :
    ∃ keys e0 erest,
      get_top_10_tasks_dropdown tasks end_date = Except.ok (e0 :: erest, e0) ∧
      e0 :: erest = keys.enum.map (fun p => encodeRankedTask (p.1 + 1) p.2) ∧
      keys.length ≤ 10 ∧
      (∀ k ∈ keys, k ∈ windowParts tasks end_date) ∧
      List.Pairwise (ranksAbove (windowParts tasks end_date)) keys ∧
      (∀ p ∈ windowParts tasks end_date, p ∉ keys → ∀ k ∈ keys,
        ranksAbove (windowParts tasks end_date) k p) := by
  set parts : List String := windowParts tasks end_date with hpartsdef
  set keys0 : List String := uniqueFirst parts with hkeys0def
  set tagged : List (Nat × String × Nat) :=
    keys0.enum.map (fun p => (p.1, p.2, parts.count p.2)) with htaggeddef
  set sorted : List (Nat × String × Nat) := List.insertionSort rankLe tagged with hsorteddef
  set keys : List String := (sorted.take 10).map (fun q => q.2.1) with hkeysdef
  have hfact : ∀ q ∈ tagged, ∃ h : q.1 < keys0.length,
      q.2.1 = keys0.get ⟨q.1, h⟩ ∧ q.2.2 = parts.count q.2.1 := by
    intro q hq
    rw [htaggeddef, List.mem_map] at hq
    obtain ⟨p, hp, rfl⟩ := hq
    rw [List.mem_enum_iff_getElem?] at hp
    have hlt : p.1 < keys0.length := by
      by_contra hcon
      rw [List.getElem?_eq_none (by omega)] at hp
      cases hp
    have hp2 : keys0.get ⟨p.1, hlt⟩ = p.2 := by
      have hg := List.getElem?_eq_getElem hlt
      rw [hg] at hp
      rw [List.get_eq_getElem]
      exact Option.some.inj hp
    exact ⟨hlt, hp2.symm, rfl⟩
  have hsortedPW : List.Pairwise rankLe sorted := by
    rw [hsorteddef]
    exact List.sorted_insertionSort rankLe tagged
  have hperm : sorted.Perm tagged := by
    rw [hsorteddef]; exact List.perm_insertionSort rankLe tagged
  have hndfst : List.Pairwise (fun a b => a.1 ≠ b.1) sorted := by
    have h1 : (tagged.map Prod.fst) = List.range keys0.length := by
      rw [htaggeddef, List.map_map]
      rw [show (Prod.fst ∘ fun p : Nat × String => (p.1, p.2, parts.count p.2)) =
        (Prod.fst : Nat × String → Nat) from rfl]
      exact List.enum_map_fst keys0
    have h2 : (sorted.map Prod.fst).Nodup := by
      have hp := hperm.map Prod.fst
      rw [hp.nodup_iff, h1]
      exact List.nodup_range _
    exact List.pairwise_map.mp h2
  have hcomb : List.Pairwise (fun a b => rankLe a b ∧ a.1 ≠ b.1) sorted :=
    hsortedPW.and hndfst
  have hmono : ∀ i j (hi : i < keys0.length) (hj : j < keys0.length), i < j →
      firstIdx (keys0.get ⟨i, hi⟩) parts < firstIdx (keys0.get ⟨j, hj⟩) parts := by
    have hp := pairwise_firstIdx_uniqueFirst parts
    rw [← hkeys0def] at hp
    rw [List.pairwise_iff_get] at hp
    exact fun i j hi hj hij => hp ⟨i, hi⟩ ⟨j, hj⟩ hij
  have htrans2 : ∀ a b, a ∈ tagged → b ∈ tagged → rankLe a b → a.1 ≠ b.1 →
      ranksAbove parts a.2.1 b.2.1 := by
    intro a b ha hb hr hne2
    obtain ⟨hia, ha1, ha2⟩ := hfact a ha
    obtain ⟨hib, hb1, hb2⟩ := hfact b hb
    rcases hr with hlt | ⟨heq, hle⟩
    · left
      rw [ha2, hb2] at hlt
      exact hlt
    · right
      refine ⟨by rw [ha2, hb2] at heq; exact heq, ?_⟩
      have hij : a.1 < b.1 := lt_of_le_of_ne hle hne2
      have hm := hmono a.1 b.1 hia hib hij
      rw [← ha1, ← hb1] at hm
      exact hm
  have hsub : (sorted.take 10).Sublist sorted := List.take_sublist 10 sorted
  have hPW10 : List.Pairwise (fun a b => rankLe a b ∧ a.1 ≠ b.1) (sorted.take 10) :=
    List.Pairwise.sublist hsub hcomb
  have hmemtake : ∀ q ∈ sorted.take 10, q ∈ tagged :=
    fun q hq => hperm.mem_iff.mp (List.Sublist.mem hq hsub)
  have hkeysPW : List.Pairwise (ranksAbove parts) keys := by
    rw [hkeysdef, List.pairwise_map]
    refine List.Pairwise.imp_of_mem ?_ hPW10
    intro a b ha hb hab
    exact htrans2 a b (hmemtake a ha) (hmemtake b hb) hab.1 hab.2
  have hkmem : ∀ k ∈ keys, k ∈ parts := by
    intro k hk
    rw [hkeysdef, List.mem_map] at hk
    obtain ⟨q, hq, rfl⟩ := hk
    obtain ⟨hiq, hq1, _⟩ := hfact q (hmemtake q hq)
    rw [hq1]
    have hmemk : keys0.get ⟨q.1, hiq⟩ ∈ keys0 := List.get_mem _ _ _
    exact (mem_uniqueFirst parts _).mp hmemk
  have hbound : ∀ p ∈ parts, p ∉ keys → ∀ k ∈ keys, ranksAbove parts k p := by
    intro p hp hpk k hk
    have hp0 : p ∈ keys0 := by
      rw [hkeys0def]; exact (mem_uniqueFirst parts p).mpr hp
    obtain ⟨⟨ip, hip⟩, hipeq⟩ := List.mem_iff_get.mp hp0
    have hptag : (ip, p, parts.count p) ∈ tagged := by
      rw [htaggeddef, List.mem_map]
      refine ⟨(ip, p), ?_, rfl⟩
      rw [List.mem_enum_iff_getElem?]
      have hge : keys0[ip] = p := by
        rw [← hipeq]
        exact (List.get_eq_getElem keys0 ⟨ip, hip⟩).symm
      rw [List.getElem?_eq_getElem hip, hge]
    have hpsort : (ip, p, parts.count p) ∈ sorted := hperm.mem_iff.mpr hptag
    obtain ⟨⟨jp, hjp⟩, hjpeq⟩ := List.mem_iff_get.mp hpsort
    have hjp10 : 10 ≤ jp := by
      by_contra hcon
      push_neg at hcon
      apply hpk
      rw [hkeysdef, List.mem_map]
      have hjtake : jp < (sorted.take 10).length := by
        rw [List.length_take, lt_min_iff]
        exact ⟨hcon, hjp⟩
      refine ⟨(sorted.take 10).get ⟨jp, hjtake⟩, List.get_mem _ _ _, ?_⟩
      have hgt : (sorted.take 10).get ⟨jp, hjtake⟩ = sorted.get ⟨jp, hjp⟩ := by
        rw [List.get_eq_getElem, List.get_eq_getElem]
        exact List.getElem_take sorted
      rw [hgt, hjpeq]
    rw [hkeysdef, List.mem_map] at hk
    obtain ⟨qk, hqk, rfl⟩ := hk
    obtain ⟨⟨jk, hjk⟩, hjkeq⟩ := List.mem_iff_get.mp hqk
    have hjk10 : jk < 10 := by
      have h := hjk; rw [List.length_take, lt_min_iff] at h; exact h.1
    have hjklen : jk < sorted.length := by
      have h := hjk; rw [List.length_take, lt_min_iff] at h; exact h.2
    have hqkeq : (sorted.take 10).get ⟨jk, hjk⟩ = sorted.get ⟨jk, hjklen⟩ := by
      rw [List.get_eq_getElem, List.get_eq_getElem]
      exact List.getElem_take sorted
    have hrel := (List.pairwise_iff_get.mp hcomb) ⟨jk, hjklen⟩ ⟨jp, hjp⟩ (by
      show jk < jp
      omega)
    have htr := htrans2 (sorted.get ⟨jk, hjklen⟩) (sorted.get ⟨jp, hjp⟩)
      (hperm.mem_iff.mp (List.get_mem _ _ _)) (hperm.mem_iff.mp (List.get_mem _ _ _))
      hrel.1 hrel.2
    rw [hjpeq] at htr
    rw [← hqkeq, hjkeq] at htr
    exact htr
  have hkeylen : keys.length ≤ 10 := by
    rw [hkeysdef, List.length_map, List.length_take]
    exact min_le_left _ _
  have hkeysne : keys ≠ [] := by
    have h0 : keys0 ≠ [] := by
      intro hcon
      obtain ⟨p0, hp0⟩ := List.exists_mem_of_ne_nil parts hne
      have h1 : p0 ∈ keys0 := by
        rw [hkeys0def]; exact (mem_uniqueFirst parts p0).mpr hp0
      rw [hcon] at h1
      cases h1
    have hlen0 : 0 < keys0.length := List.length_pos.mpr h0
    have hlentag : tagged.length = keys0.length := by
      rw [htaggeddef, List.length_map, List.enum_length]
    have hlensort : sorted.length = tagged.length := hperm.length_eq
    intro hcon
    rw [hkeysdef] at hcon
    have hlc := congrArg List.length hcon
    rw [List.length_map, List.length_take] at hlc
    simp only [List.length_nil, Nat.min_eq_zero_iff] at hlc
    omega
  obtain ⟨k0, krest, hkcons⟩ := List.exists_cons_of_ne_nil hkeysne
  refine ⟨keys, encodeRankedTask 1 k0,
    (krest.enumFrom 1).map (fun p => encodeRankedTask (p.1 + 1) p.2),
    ?_, ?_, hkeylen, hkmem, hkeysPW, hbound⟩
  · unfold get_top_10_tasks_dropdown
    have hsc : (((value_counts (windowParts tasks end_date)).take 10).map Prod.fst) = keys := by
      rw [← hpartsdef, hkeysdef, hsorteddef, htaggeddef, hkeys0def]
      unfold value_counts
      rw [← List.map_take, List.map_map]
      rfl
    rw [hsc, hkcons]
    rfl
  · rw [hkcons]
    rfl

/-- Row with a chosen part number, for concrete ranking tables. -/
def mkPartTask (p : String) : TaskRow := { mkDriverTask "A" with partNo := p }

/-- C4 counterexample: with the single row dated before the cutoff, the
window is empty and `get_top_10_tasks_dropdown` raises `IndexError` on
`top_10_tasks[0]` instead of returning a ranking and a default selection,
so the claim fails as stated for this table and cutoff. -/
theorem top10_ranking_counterexample :
    exOk (get_top_10_tasks_dropdown [mkDriverTask "A"] 5) = false := by rfl

/-- C4 witness table: part "P2" occurs twice, "P1" once, all in window. -/
def exPartTable : List TaskRow := [mkPartTask "P1", mkPartTask "P2", mkPartTask "P2"]

theorem top10_ranking_witness :
    windowParts exPartTable 0 ≠ [] ∧
    (∃ keys e0 erest,
      get_top_10_tasks_dropdown exPartTable 0 = Except.ok (e0 :: erest, e0) ∧
      e0 :: erest = keys.enum.map (fun p => encodeRankedTask (p.1 + 1) p.2) ∧
      keys.length ≤ 10 ∧
      (∀ k ∈ keys, k ∈ windowParts exPartTable 0) ∧
      List.Pairwise (ranksAbove (windowParts exPartTable 0)) keys ∧
      (∀ p ∈ windowParts exPartTable 0, p ∉ keys → ∀ k ∈ keys,
        ranksAbove (windowParts exPartTable 0) k p)) :=
  ⟨by decide, top10_ranking_spec exPartTable 0 (by decide)⟩

/-! ### src/modules/wc_analytics.py `create_efficiency_table` and
`_sort_wc_names`, src/modules/driver_analytics.py `create_efficiency_table` -/

/-- Ratio cell of an efficiency table: either the literal string
`'Insufficient Data'`, or the f-string `f'{sum/count:.2f}'` — the value is
carried as its exact numerator (the group sum) and denominator (the group
count); the two-decimal rendering of that quotient is presentation. -/
inductive RatioCell where
  | insufficientData : RatioCell
  | value : Int → Nat → RatioCell
deriving DecidableEq

/-- Guarded ratio of both efficiency tables: `sum != 0` picks the ratio,
otherwise the sentinel. -/
def ratioCell (sumv : Int) (cnt : Nat) : RatioCell :=
  if sumv ≠ 0 then RatioCell.value sumv cnt else RatioCell.insufficientData

def intLe (a b : Int) : Prop := a ≤ b

instance : DecidableRel intLe := fun a b => inferInstanceAs (Decidable (a ≤ b))

/-- pandas median of a numeric column: middle element of the sorted values
for odd length, mean of the two middle elements for even length.  The
result is carried exactly as (sum of the one or two middle values, how
many there are).  Groups are nonempty, so the even branch with its `getD`
defaults is never reached on an empty list in this development. -/
def pandasMedian (l : List Int) : Int × Nat :=
  if (List.insertionSort intLe l).length % 2 = 1 then
    ((List.insertionSort intLe l).getD ((List.insertionSort intLe l).length / 2) 0, 1)
  else
    ((List.insertionSort intLe l).getD ((List.insertionSort intLe l).length / 2 - 1) 0 +
      (List.insertionSort intLe l).getD ((List.insertionSort intLe l).length / 2) 0, 2)

/-- `int(re.search(r'[0-9]+', x)[0])` of `_sort_wc_names`: the first digit
run read as a number; a label with no digit makes the `[0]` raise. -/
def assemblyNo (wc : String) : Option Nat :=
  (findRank wc.data).bind (fun ds => decDigitsAux ds 0)

def asmLe {β : Type} (a b : Nat × β) : Prop := a.1 ≤ b.1

instance {β : Type} : DecidableRel (@asmLe β) := fun a b => inferInstanceAs (Decidable (a.1 ≤ b.1))

instance {β : Type} : IsTotal (Nat × β) asmLe := ⟨fun a b => Nat.le_total a.1 b.1⟩

instance {β : Type} : IsTrans (Nat × β) asmLe := ⟨fun _ _ _ h1 h2 => Nat.le_trans h1 h2⟩

/-- Embedding of `_sort_wc_names`: tag each row with the number extracted
from its work-center label (raising if any label has no digit) and sort by
that number ascending.  pandas `sort_values` leaves the order of equal
keys unspecified; this model keeps them in input order. -/
def sort_wc_names {β : Type} (wcOf : β → String) (rows : List β) : Except String (List β) :=
  match rows.mapM (fun r =>
      match assemblyNo (wcOf r) with
      | none => Except.error "TypeError"
      | some n => Except.ok ((n, r) : Nat × β)) with
  | Except.error e => Except.error e
  | Except.ok tagged => Except.ok ((List.insertionSort asmLe tagged).map Prod.snd)

/-- Group `df.groupby('Work Center')` membership: the windowed rows with
the given label. -/
def wcGroup (tasks : List TaskRow) (end_date : Nat) (wc : String) : List TaskRow :=
  (windowRows tasks end_date).filter (fun t => t.workcenter == wc)

/-- Rows of `tasks[tasks['Status'] == 'Completed']` further windowed, the
prefilter of the driver-side functions. -/
def completedWindowRows (tasks : List TaskRow) (end_date : Nat) : List TaskRow :=
  (tasks.filter (fun t => t.status == "Completed")).filter
    (fun t => decide (end_date ≤ t.creationDate))

/-- Group `df.groupby('Driver')` membership on the completed window. -/
def driverGroup (tasks : List TaskRow) (end_date : Nat) (d : String) : List TaskRow :=
  (completedWindowRows tasks end_date).filter (fun t => t.driver == d)

/-- Row of the per-work-center efficiency table: label, task count, median
queue time and the two guarded ratio cells. -/
structure WCEffRow where
  workCenter : String
  totalTasks : Nat
  avgQueueTime : Int × Nat
  durTaskRatio : RatioCell
  distTaskRatio : RatioCell
deriving DecidableEq

def mkWCEffRow (wc : String) (g : List TaskRow) : WCEffRow :=
  { workCenter := wc
    totalTasks := g.length
    avgQueueTime := pandasMedian (g.map TaskRow.queueTime)
    durTaskRatio := ratioCell (g.map TaskRow.duration).sum g.length
    distTaskRatio := ratioCell (g.map TaskRow.distance).sum g.length }

/-- Embedding of wc_analytics `create_efficiency_table`: group the
windowed rows (no status filter) by work center in first-appearance order
(`sort=False`), build one row per group from the groupwise median, count
and sums, and finally sort the table by assembly number. -/
def wc_create_efficiency_table (tasks : List TaskRow) (end_date : Nat) :
    Except String (List WCEffRow) :=
  sort_wc_names (fun r => r.workCenter)
    ((uniqueFirst ((windowRows tasks end_date).map TaskRow.workcenter)).map
      (fun wc => mkWCEffRow wc (wcGroup tasks end_date wc)))

def strLe (a b : String) : Prop := a ≤ b

instance : DecidableRel strLe := fun a b => inferInstanceAs (Decidable (a ≤ b))

/-- Row of the per-driver efficiency table. -/
structure DriverEffRow where
  driver : String
  totalTasks : Nat
  durTaskRatio : RatioCell
  distTaskRatio : RatioCell
deriving DecidableEq

def mkDriverEffRow (d : String) (g : List TaskRow) : DriverEffRow :=
  { driver := d
    totalTasks := g.length
    durTaskRatio := ratioCell (g.map TaskRow.duration).sum g.length
    distTaskRatio := ratioCell (g.map TaskRow.distance).sum g.length }

def drLe (a b : DriverEffRow) : Prop := a.driver ≤ b.driver

instance : DecidableRel drLe := fun a b => inferInstanceAs (Decidable (a.driver ≤ b.driver))

/-- Embedding of driver_analytics `create_efficiency_table`: group the
completed windowed rows by driver (pandas `groupby` default sorts the
keys), build one row per group from the groupwise count and sums, and
finally `sort_values('Driver')`. -/
def driver_create_efficiency_table (tasks : List TaskRow) (end_date : Nat) :
    List DriverEffRow :=
  List.insertionSort drLe
    ((List.insertionSort strLe
        (uniqueFirst ((completedWindowRows tasks end_date).map TaskRow.driver))).map
      (fun d => mkDriverEffRow d (driverGroup tasks end_date d)))

theorem mapM_tag_snd {β : Type} (g : β → Option Nat) :
    ∀ (l : List β) (out : List (Nat × β)),
      (l.mapM (fun r =>
        match g r with
        | none => Except.error "TypeError"
        | some n => Except.ok ((n, r) : Nat × β))) = Except.ok out →
      out.map Prod.snd = l := by
  intro l
  induction l with
  | nil =>
    intro out h
    rw [List.mapM_nil] at h
    simp only [pure, Except.pure, Except.ok.injEq] at h
    rw [← h]
    rfl
  | cons x xs ih =>
    intro out h
    rw [List.mapM_cons] at h
    rcases hgx : g x with _ | n
    · rw [hgx] at h
      simp [Bind.bind, Except.bind] at h
    · rw [hgx] at h
      rcases hxs : xs.mapM (fun r =>
          match g r with
          | none => Except.error "TypeError"
          | some n => Except.ok ((n, r) : Nat × β)) with e | bs
      · rw [hxs] at h
        simp [Bind.bind, Except.bind] at h
      · rw [hxs] at h
        simp only [Bind.bind, Except.bind, pure, Except.pure, Except.ok.injEq] at h
        rw [← h, List.map_cons, ih bs hxs]

theorem sort_wc_names_perm {β : Type} (wcOf : β → String) (rows out : List β)
    (h : sort_wc_names wcOf rows = Except.ok out) : out.Perm rows := by
  unfold sort_wc_names at h
  split at h
  · cases h
  · rename_i tagged heq
    rw [Except.ok.injEq] at h
    rw [← h]
    have hp : (List.insertionSort asmLe tagged).Perm tagged := List.perm_insertionSort _ _
    have hmap := hp.map Prod.snd
    rw [mapM_tag_snd (fun r => assemblyNo (wcOf r)) rows tagged heq] at hmap
    exact hmap

/-- Content of C5 for one group `g` and its two cells: a zero sum forces
the sentinel; a nonzero sum forces the value cell carrying exactly
`sum / count` (count = the group's task count). -/
def ratioCellsCorrect (g : List TaskRow) (durCell distCell : RatioCell) : Prop :=
  ((g.map TaskRow.duration).sum = 0 → durCell = RatioCell.insufficientData) ∧
  ((g.map TaskRow.duration).sum ≠ 0 →
    ∃ s c, durCell = RatioCell.value s c ∧ (c : ℚ) ≠ 0 ∧
      (s : ℚ) / (c : ℚ) = (((g.map TaskRow.duration).sum : Int) : ℚ) / (g.length : ℚ)) ∧
  ((g.map TaskRow.distance).sum = 0 → distCell = RatioCell.insufficientData) ∧
  ((g.map TaskRow.distance).sum ≠ 0 →
    ∃ s c, distCell = RatioCell.value s c ∧ (c : ℚ) ≠ 0 ∧
      (s : ℚ) / (c : ℚ) = (((g.map TaskRow.distance).sum : Int) : ℚ) / (g.length : ℚ))

theorem ratioCell_correct (g : List TaskRow) :
    ratioCellsCorrect g (ratioCell (g.map TaskRow.duration).sum g.length)
      (ratioCell (g.map TaskRow.distance).sum g.length) := by
  have hlen : ∀ f : TaskRow → Int, (g.map f).sum ≠ 0 → (g.length : ℚ) ≠ 0 := by
    intro f hs
    have hg : g ≠ [] := by
      intro hcon
      rw [hcon] at hs
      exact hs rfl
    have : 0 < g.length := List.length_pos.mpr hg
    exact_mod_cast Nat.pos_iff_ne_zero.mp this
  refine ⟨?_, ?_, ?_, ?_⟩
  · intro hz; unfold ratioCell; rw [if_neg]; simp [hz]
  · intro hnz
    refine ⟨(g.map TaskRow.duration).sum, g.length, ?_, hlen _ hnz, rfl⟩
    unfold ratioCell; rw [if_pos hnz]
  · intro hz; unfold ratioCell; rw [if_neg]; simp [hz]
  · intro hnz
    refine ⟨(g.map TaskRow.distance).sum, g.length, ?_, hlen _ hnz, rfl⟩
    unfold ratioCell; rw [if_pos hnz]

/-! ### Claim C5 -/

/-- C5: in both efficiency tables every group's ratio cells follow the
sentinel policy — `'Insufficient Data'` exactly when the respective
summed column is zero, and otherwise the exact quotient of the group sum
by the group's task count — and each table has a row for every group. -/
theorem efficiency_sentinel_spec (tasks : List TaskRow) (end_date : Nat)
    (wrows : List WCEffRow)
    (hwc : wc_create_efficiency_table tasks end_date = Except.ok wrows) :
    ((∀ row ∈ wrows,
        ratioCellsCorrect (wcGroup tasks end_date row.workCenter)
          row.durTaskRatio row.distTaskRatio) ∧
      (∀ wc ∈ uniqueFirst ((windowRows tasks end_date).map TaskRow.workcenter),
        ∃ row ∈ wrows, row.workCenter = wc)) ∧
    ((∀ row ∈ driver_create_efficiency_table tasks end_date,
        ratioCellsCorrect (driverGroup tasks end_date row.driver)
          row.durTaskRatio row.distTaskRatio) ∧
      (∀ d ∈ uniqueFirst ((completedWindowRows tasks end_date).map TaskRow.driver),
        ∃ row ∈ driver_create_efficiency_table tasks end_date, row.driver = d)) := by
  have hwc2 : sort_wc_names (fun r => r.workCenter)
      ((uniqueFirst ((windowRows tasks end_date).map TaskRow.workcenter)).map
        (fun wc => mkWCEffRow wc (wcGroup tasks end_date wc))) = Except.ok wrows := hwc
  have hperm := sort_wc_names_perm (fun r => r.workCenter) _ wrows hwc2
  constructor
  · constructor
    · intro row hrow
      have hrow2 := hperm.mem_iff.mp hrow
      rw [List.mem_map] at hrow2
      obtain ⟨wc, hwcmem, rfl⟩ := hrow2
      exact ratioCell_correct (wcGroup tasks end_date wc)
    · intro wc hwcmem
      refine ⟨mkWCEffRow wc (wcGroup tasks end_date wc), ?_, rfl⟩
      exact hperm.mem_iff.mpr (List.mem_map.mpr ⟨wc, hwcmem, rfl⟩)
  · have hperm2 : (driver_create_efficiency_table tasks end_date).Perm
        ((List.insertionSort strLe
            (uniqueFirst ((completedWindowRows tasks end_date).map TaskRow.driver))).map
          (fun d => mkDriverEffRow d (driverGroup tasks end_date d))) := by
      unfold driver_create_efficiency_table
      exact List.perm_insertionSort _ _
    have hperm3 : (List.insertionSort strLe
        (uniqueFirst ((completedWindowRows tasks end_date).map TaskRow.driver))).Perm
          (uniqueFirst ((completedWindowRows tasks end_date).map TaskRow.driver)) :=
      List.perm_insertionSort _ _
    constructor
    · intro row hrow
      have hrow2 := hperm2.mem_iff.mp hrow
      rw [List.mem_map] at hrow2
      obtain ⟨d, hdmem, rfl⟩ := hrow2
      exact ratioCell_correct (driverGroup tasks end_date d)
    · intro d hdmem
      refine ⟨mkDriverEffRow d (driverGroup tasks end_date d), ?_, rfl⟩
      exact hperm2.mem_iff.mpr (List.mem_map.mpr ⟨d, hperm3.mem_iff.mpr hdmem, rfl⟩)

/-- C5 witness rows: work center, duration and distance chosen per task. -/
def mkWCTask (wc : String) (dur dist : Int) : TaskRow :=
  { mkDriverTask "A" with workcenter := wc, duration := dur, distance := dist }

/-- C5 witness table: "Assembly 12" holds the spec scenario (durations
60/120/180, distances 50) and "Assembly 3" a group with zero summed
duration. -/
def exEffTable : List TaskRow :=
  [mkWCTask "Assembly 12" 60 50, mkWCTask "Assembly 12" 120 50,
   mkWCTask "Assembly 12" 180 50, mkWCTask "Assembly 3" 0 50]

def exEffRows : List WCEffRow :=
  [mkWCEffRow "Assembly 3" (wcGroup exEffTable 0 "Assembly 3"),
   mkWCEffRow "Assembly 12" (wcGroup exEffTable 0 "Assembly 12")]

theorem efficiency_sentinel_witness :
    wc_create_efficiency_table exEffTable 0 = Except.ok exEffRows ∧
    (((∀ row ∈ exEffRows,
        ratioCellsCorrect (wcGroup exEffTable 0 row.workCenter)
          row.durTaskRatio row.distTaskRatio) ∧
      (∀ wc ∈ uniqueFirst ((windowRows exEffTable 0).map TaskRow.workcenter),
        ∃ row ∈ exEffRows, row.workCenter = wc)) ∧
    ((∀ row ∈ driver_create_efficiency_table exEffTable 0,
        ratioCellsCorrect (driverGroup exEffTable 0 row.driver)
          row.durTaskRatio row.distTaskRatio) ∧
      (∀ d ∈ uniqueFirst ((completedWindowRows exEffTable 0).map TaskRow.driver),
        ∃ row ∈ driver_create_efficiency_table exEffTable 0, row.driver = d))) :=
  ⟨rfl, efficiency_sentinel_spec exEffTable 0 exEffRows rfl⟩

/-! ### src/modules/wc_analytics.py `create_rollover_queue_bars` -/

/-- One bar of the rollover chart: work center and its rollover count. -/
structure WCCount where
  workCenter : String
  taskNo : Nat
deriving DecidableEq

/-- Rows passing both the window filter and the rollover test
`df['Queue Time'] >= rollover_period`. -/
def rolloverQualify (tasks : List TaskRow) (rollover_period : Int) (end_date : Nat) :
    List TaskRow :=
  (windowRows tasks end_date).filter (fun t => decide (rollover_period ≤ t.queueTime))

/-- The grouped rollover counts, one per work center present among the
qualifying rows (`groupby` with default key sorting). -/
def rolloverCounts (tasks : List TaskRow) (rollover_period : Int) (end_date : Nat) :
    List WCCount :=
  (List.insertionSort strLe (uniqueFirst
      ((rolloverQualify tasks rollover_period end_date).map TaskRow.workcenter))).map
    (fun wc => WCCount.mk wc (((rolloverQualify tasks rollover_period end_date).filter
        (fun t => t.workcenter == wc)).length))

/-- `set(all work centers of the full table) - set(present in the grouped
counts)`; Python iterates the set in unspecified order, modelled here in
first-appearance order. -/
def zeroCountCenters (tasks : List TaskRow) (rollover_period : Int) (end_date : Nat) :
    List String :=
  (uniqueFirst (tasks.map TaskRow.workcenter)).filter
    (fun wc => decide (wc ∉ uniqueFirst
      ((rolloverQualify tasks rollover_period end_date).map TaskRow.workcenter)))

/-- `_filter_out_wc`: keep work centers whose assembly number lies in
`np.arange(wc_range[0], wc_range[1]+1)`; rows reaching this filter have
already had their number extracted successfully by `_sort_wc_names`. -/
def inWCRange (wc_range : Int × Int) (wc : String) : Bool :=
  match assemblyNo wc with
  | some n => decide (wc_range.1 ≤ (n : Int)) && decide ((n : Int) ≤ wc_range.2)
  | none => false

/-- Embedding of `create_rollover_queue_bars` (up to the chart payload):
grouped counts of qualifying rows, explicit zero rows appended for every
known center absent from them, then the assembly-number sort and the
work-center range filter. -/
def create_rollover_queue_bars (tasks : List TaskRow) (rollover_period : Int)
    (wc_range : Int × Int) (end_date : Nat) : Except String (List WCCount) :=
  match sort_wc_names (fun r => r.workCenter)
      (rolloverCounts tasks rollover_period end_date ++
        (zeroCountCenters tasks rollover_period end_date).map (fun wc => WCCount.mk wc 0)) with
  | Except.error e => Except.error e
  | Except.ok rows => Except.ok (rows.filter (fun r => inWCRange wc_range r.workCenter))

theorem count_zero_of_not_mem_centers (qual : List TaskRow) (wc : String)
    (h : wc ∉ qual.map TaskRow.workcenter) :
    (qual.filter (fun t => t.workcenter == wc)).length = 0 := by
  rw [List.length_eq_zero, List.filter_eq_nil_iff]
  intro t ht hcon
  apply h
  rw [List.mem_map]
  exact ⟨t, ht, by simpa using hcon⟩

/-! ### Claim C6 -/

/-- C6: whenever the rollover chart data is produced, it holds one entry
for every work center appearing anywhere in the full Task Table whose
assembly number lies in the requested range — carrying that center's
count of windowed rows with `queue_time >= threshold`, which is an
explicit zero when no row qualifies — and every entry's count is that of
its center, so no known center is silently omitted or miscounted. -/
theorem rollover_zero_fill (tasks : List TaskRow) (rollover_period : Int)
    (wc_range : Int × Int) (end_date : Nat) (out : List WCCount)
    (h : create_rollover_queue_bars tasks rollover_period wc_range end_date = Except.ok out) :
    (∀ wc ∈ tasks.map TaskRow.workcenter, inWCRange wc_range wc = true →
      WCCount.mk wc (((rolloverQualify tasks rollover_period end_date).filter
          (fun t => t.workcenter == wc)).length) ∈ out) ∧
    (∀ r ∈ out, r.taskNo = ((rolloverQualify tasks rollover_period end_date).filter
        (fun t => t.workcenter == r.workCenter)).length) := by
  unfold create_rollover_queue_bars at h
  split at h
  · cases h
  · rename_i rows heq
    rw [Except.ok.injEq] at h
    subst h
    have hperm := sort_wc_names_perm (fun r => r.workCenter) _ rows heq
    have hpre : ∀ r : WCCount,
        (r ∈ rolloverCounts tasks rollover_period end_date ++
          (zeroCountCenters tasks rollover_period end_date).map (fun wc => WCCount.mk wc 0)) ↔
        r ∈ rows := fun r => (hperm.mem_iff (a := r)).symm
    constructor
    · intro wc hwc hrange
      rw [List.mem_filter]
      refine ⟨?_, by simpa using hrange⟩
      rw [← hpre, List.mem_append]
      by_cases hq : wc ∈ uniqueFirst
          ((rolloverQualify tasks rollover_period end_date).map TaskRow.workcenter)
      · left
        unfold rolloverCounts
        rw [List.mem_map]
        refine ⟨wc, ?_, rfl⟩
        exact ((List.perm_insertionSort strLe _).mem_iff).mpr hq
      · right
        rw [List.mem_map]
        have hzero : ((rolloverQualify tasks rollover_period end_date).filter
            (fun t => t.workcenter == wc)).length = 0 := by
          apply count_zero_of_not_mem_centers
          intro hcon
          exact hq ((mem_uniqueFirst _ _).mpr hcon)
        rw [hzero]
        refine ⟨wc, ?_, rfl⟩
        unfold zeroCountCenters
        rw [List.mem_filter]
        exact ⟨(mem_uniqueFirst _ _).mpr hwc, by simpa using hq⟩
    · intro r hr
      have hr2 : r ∈ rows := (List.mem_filter.mp hr).1
      rw [← hpre, List.mem_append] at hr2
      rcases hr2 with hc | hz
      · unfold rolloverCounts at hc
        rw [List.mem_map] at hc
        obtain ⟨wc, _, rfl⟩ := hc
        rfl
      · rw [List.mem_map] at hz
        obtain ⟨wc, hwcz, rfl⟩ := hz
        unfold zeroCountCenters at hwcz
        rw [List.mem_filter] at hwcz
        have hnq : wc ∉ (rolloverQualify tasks rollover_period end_date).map
            TaskRow.workcenter := by
          intro hcon
          have := hwcz.2
          simp only [decide_eq_true_eq] at this
          exact this ((mem_uniqueFirst _ _).mpr hcon)
        exact (count_zero_of_not_mem_centers _ _ hnq).symm

/-- C6 witness rows: work center and queue time chosen per task. -/
def mkQueueTask (wc : String) (q : Int) : TaskRow :=
  { mkDriverTask "A" with workcenter := wc, queueTime := q }

/-- C6 witness table: "Assembly 1" has one rollover task at threshold
3600, "Assembly 2" has none and must appear with an explicit zero. -/
def exRolloverTable : List TaskRow :=
  [mkQueueTask "Assembly 1" 5000, mkQueueTask "Assembly 2" 100]

theorem rollover_zero_fill_witness :
    create_rollover_queue_bars exRolloverTable 3600 (1, 12) 0 =
      Except.ok [WCCount.mk "Assembly 1" 1, WCCount.mk "Assembly 2" 0] ∧
    ((∀ wc ∈ exRolloverTable.map TaskRow.workcenter, inWCRange (1, 12) wc = true →
      WCCount.mk wc (((rolloverQualify exRolloverTable 3600 0).filter
          (fun t => t.workcenter == wc)).length) ∈
        [WCCount.mk "Assembly 1" 1, WCCount.mk "Assembly 2" 0]) ∧
    (∀ r ∈ [WCCount.mk "Assembly 1" 1, WCCount.mk "Assembly 2" 0],
      r.taskNo = ((rolloverQualify exRolloverTable 3600 0).filter
        (fun t => t.workcenter == r.workCenter)).length)) :=
  ⟨rfl, rollover_zero_fill exRolloverTable 3600 (1, 12) 0
    [WCCount.mk "Assembly 1" 1, WCCount.mk "Assembly 2" 0] rfl⟩

/-! ### src/modules/wc_analytics.py `generate_stat_block_values` -/

/-- Gregorian date `(year, month, day)` of day number `z` counted from
1970-01-01, by the standard civil-from-days algorithm (valid for all
`z ≥ 0`, which covers every timestamp of this model). -/
def civilFromDays (z : Nat) : Nat × Nat × Nat :=
  let w := z + 719468
  let era := w / 146097
  let doe := w % 146097
  let yoe := (doe - doe / 1460 + doe / 36524 - doe / 146096) / 365
  let y := yoe + era * 400
  let doy := doe - (365 * yoe + yoe / 4 - yoe / 100)
  let mp := (5 * doy + 2) / 153
  let d := doy - (153 * mp + 2) / 5 + 1
  let m := if mp < 10 then mp + 3 else mp - 9
  (if m ≤ 2 then y + 1 else y, m, d)

/-- Day number of a Gregorian date, inverse of `civilFromDays` (valid
from 1970 on, which covers every date of this model). -/
def daysFromCivil (y m d : Nat) : Nat :=
  let y2 := if m ≤ 2 then y - 1 else y
  let era := y2 / 400
  let yoe := y2 % 400
  let doy := (153 * (if 2 < m then m - 3 else m + 9) + 2) / 5 + d - 1
  let doe := yoe * 365 + yoe / 4 - yoe / 100 + doy
  era * 146097 + doe - 719468

/-- `.dt.month` / `.month` of a timestamp: the month of year, 1 to 12 —
note it carries no year, so the same month of different years collapses
to one value. -/
def monthOf (t : Nat) : Nat := (civilFromDays (t / 86400)).2.1

/-- `current_date.strftime("%Y-%m-01")` parsed back as a timestamp:
midnight on the first day of the timestamp's month. -/
def monthStartTs (t : Nat) : Nat :=
  daysFromCivil (civilFromDays (t / 86400)).1 (civilFromDays (t / 86400)).2.1 1 * 86400

/-- Rows with `Status == 'Completed'`. -/
def completedIn (tasks : List TaskRow) : List TaskRow :=
  tasks.filter (fun t => t.status == "Completed")

/-- Keys of `completed_tasks.groupby(completed_tasks['Creation Date'])`
(`sort=False`: first-appearance order). -/
def completedDayKeys (tasks : List TaskRow) : List Nat :=
  uniqueFirst ((completedIn tasks).map TaskRow.creationDate)

/-- Keys of the month grouping
`completed_tasks.groupby(completed_tasks['Creation Time'].dt.month)`. -/
def completedMonthKeys (tasks : List TaskRow) : List Nat :=
  uniqueFirst ((completedIn tasks).map (fun t => monthOf t.creationTime))

/-- Embedding of `generate_stat_block_values`.  `current_date` is row 0's
`Creation Date` (`IndexError` on an empty table).  The five scalars are
the completed and queued counts among rows with
`Creation Time >= current_date`, the completed count since the month
start, and the two truncated means of groupwise completed counts after
`.drop(current_date)` / `.drop(current_month)` — where `.drop` raises
`KeyError` when the key is absent from the group keys, and `int(...)` of
the mean of no remaining groups raises `ValueError` (`int(NaN)`).  The
mean followed by `int()` is floor division here. -/
def generate_stat_block_values (tasks : List TaskRow) : Except String (List Nat) :=
  match tasks with
  | [] => Except.error "IndexError"
  | t0 :: rest =>
      if t0.creationDate ∈ completedDayKeys (t0 :: rest) then
        if monthOf t0.creationDate ∈ completedMonthKeys (t0 :: rest) then
          if (completedDayKeys (t0 :: rest)).filter
              (fun k => decide (k ≠ t0.creationDate)) = [] then
            Except.error "ValueError"
          else if (completedMonthKeys (t0 :: rest)).filter
              (fun k => decide (k ≠ monthOf t0.creationDate)) = [] then
            Except.error "ValueError"
          else
            Except.ok
              [(((t0 :: rest).filter (fun t => decide (t0.creationDate ≤ t.creationTime))).filter
                  (fun t => t.status == "Completed")).length,
               (((t0 :: rest).filter (fun t => decide (t0.creationDate ≤ t.creationTime))).filter
                  (fun t => t.status == "Waiting")).length +
                 (((t0 :: rest).filter (fun t => decide (t0.creationDate ≤ t.creationTime))).filter
                  (fun t => t.status == "In-Progress")).length,
               ((completedIn (t0 :: rest)).filter
                  (fun t => decide (monthStartTs t0.creationDate ≤ t.creationTime))).length,
               (((completedDayKeys (t0 :: rest)).filter
                    (fun k => decide (k ≠ t0.creationDate))).map
                  (fun k => ((completedIn (t0 :: rest)).filter
                    (fun t => t.creationDate == k)).length)).sum /
                 ((completedDayKeys (t0 :: rest)).filter
                    (fun k => decide (k ≠ t0.creationDate))).length,
               (((completedMonthKeys (t0 :: rest)).filter
                    (fun k => decide (k ≠ monthOf t0.creationDate))).map
                  (fun k => ((completedIn (t0 :: rest)).filter
                    (fun t => monthOf t.creationTime == k)).length)).sum /
                 ((completedMonthKeys (t0 :: rest)).filter
                    (fun k => decide (k ≠ monthOf t0.creationDate))).length]
        else Except.error "KeyError"
      else Except.error "KeyError"

theorem countP_disjoint_or {α : Type} (p q : α → Bool) (l : List α)
    (hdisj : ∀ x ∈ l, ¬(p x = true ∧ q x = true)) :
    l.countP (fun x => p x || q x) = l.countP p + l.countP q := by
  induction l with
  | nil => rfl
  | cons x xs ih =>
    rw [List.countP_cons, List.countP_cons, List.countP_cons,
        ih (fun y hy => hdisj y (List.mem_cons_of_mem x hy))]
    have hx := hdisj x (List.mem_cons_self x xs)
    by_cases hp : p x = true
    · by_cases hq : q x = true
      · exact absurd ⟨hp, hq⟩ hx
      · simp [hp, hq]
        omega
    · by_cases hq : q x = true <;> simp [hp, hq] <;> omega

theorem sum_counts_over_keys {α κ : Type} [DecidableEq κ] [BEq κ] [LawfulBEq κ]
    (f : α → κ) (l : List α) :
    ∀ keys : List κ, keys.Nodup →
      (keys.map (fun k => (l.filter (fun t => f t == k)).length)).sum =
      l.countP (fun t => decide (f t ∈ keys)) := by
  intro keys
  induction keys with
  | nil =>
    intro _
    simp [List.countP_eq_length_filter]
  | cons k ks ih =>
    intro hnd
    rw [List.map_cons, List.sum_cons, ih hnd.of_cons]
    rw [show (l.filter (fun t => f t == k)).length = l.countP (fun t => f t == k) from
      (List.countP_eq_length_filter _ _).symm]
    rw [← countP_disjoint_or (fun t => f t == k) (fun t => decide (f t ∈ ks)) l
      (by
        intro x _
        rintro ⟨h1, h2⟩
        have hk : f x = k := by simpa using h1
        have hks : f x ∈ ks := by simpa using h2
        exact (List.nodup_cons.mp hnd).1 (hk ▸ hks))]
    apply List.countP_congr
    intro x _
    simp [List.mem_cons]

theorem nodup_uniqueFirst {α : Type} [DecidableEq α] (l : List α) :
    (uniqueFirst l).Nodup := nodup_uniqueAux l []

theorem sum_group_counts_ne {α κ : Type} [DecidableEq κ] [BEq κ] [LawfulBEq κ]
    (f : α → κ) (l : List α) (k0 : κ) :
    (((uniqueFirst (l.map f)).filter (fun k => decide (k ≠ k0))).map
      (fun k => (l.filter (fun t => f t == k)).length)).sum =
    (l.filter (fun t => decide (f t ≠ k0))).length := by
  rw [sum_counts_over_keys f l _ (List.Nodup.filter _ (nodup_uniqueFirst (l.map f)))]
  rw [show (l.filter (fun t => decide (f t ≠ k0))).length =
    l.countP (fun t => decide (f t ≠ k0)) from (List.countP_eq_length_filter _ _).symm]
  apply List.countP_congr
  intro x hx
  simp only [decide_eq_true_eq, List.mem_filter, mem_uniqueFirst, List.mem_map]
  constructor
  · rintro ⟨-, hne⟩
    exact hne
  · intro hne
    exact ⟨⟨x, hx, rfl⟩, hne⟩

theorem floorDay_mono {a b : Nat} (h : a ≤ b) : floorDay a ≤ floorDay b := by
  unfold floorDay
  exact Nat.mul_le_mul_right _ (Nat.div_le_div_right h)

/-- Success-branch extraction for `generate_stat_block_values`: whatever
`Except.ok` carries is the five-scalar list of the definition. -/
theorem stat_block_success (t0 : TaskRow) (rest : List TaskRow) (vals : List Nat)
    (h : generate_stat_block_values (t0 :: rest) = Except.ok vals) :
    vals =
      [(((t0 :: rest).filter (fun t => decide (t0.creationDate ≤ t.creationTime))).filter
          (fun t => t.status == "Completed")).length,
       (((t0 :: rest).filter (fun t => decide (t0.creationDate ≤ t.creationTime))).filter
          (fun t => t.status == "Waiting")).length +
         (((t0 :: rest).filter (fun t => decide (t0.creationDate ≤ t.creationTime))).filter
          (fun t => t.status == "In-Progress")).length,
       ((completedIn (t0 :: rest)).filter
          (fun t => decide (monthStartTs t0.creationDate ≤ t.creationTime))).length,
       (((completedDayKeys (t0 :: rest)).filter
            (fun k => decide (k ≠ t0.creationDate))).map
          (fun k => ((completedIn (t0 :: rest)).filter
            (fun t => t.creationDate == k)).length)).sum /
         ((completedDayKeys (t0 :: rest)).filter
            (fun k => decide (k ≠ t0.creationDate))).length,
       (((completedMonthKeys (t0 :: rest)).filter
            (fun k => decide (k ≠ monthOf t0.creationDate))).map
          (fun k => ((completedIn (t0 :: rest)).filter
            (fun t => monthOf t.creationTime == k)).length)).sum /
         ((completedMonthKeys (t0 :: rest)).filter
            (fun k => decide (k ≠ monthOf t0.creationDate))).length] := by
  unfold generate_stat_block_values at h
  dsimp only at h
  split_ifs at h
  · injection h with h2
    exact h2.symm

/-! ### Claim C8 -/

/-- C8: the KPI block's 'today' is the creation date of the table's first
row — the embedding is a pure function of the table with no clock input —
which under the newest-first ordering contract (creation times
non-increasing down the table, creation dates derived by day-flooring) is
the most recent creation date present; and the first two returned scalars
count exactly the completed, respectively waiting-or-in-progress, rows
whose Creation Time falls on or after that date. -/
theorem stat_block_today_spec (tasks : List TaskRow) (t0 : TaskRow) (rest : List TaskRow)
    (htab : tasks = t0 :: rest)
    (hsorted : List.Pairwise (fun a b => b.creationTime ≤ a.creationTime) tasks)
    (hderiv : ∀ t ∈ tasks, t.creationDate = floorDay t.creationTime)
    (vals : List Nat) (h : generate_stat_block_values tasks = Except.ok vals) :
    (∀ t ∈ tasks, t.creationDate ≤ t0.creationDate) ∧
    (∃ tail, vals =
      ((tasks.filter (fun t => decide (t0.creationDate ≤ t.creationTime))).filter
          (fun t => t.status == "Completed")).length ::
        (((tasks.filter (fun t => decide (t0.creationDate ≤ t.creationTime))).filter
            (fun t => t.status == "Waiting")).length +
          ((tasks.filter (fun t => decide (t0.creationDate ≤ t.creationTime))).filter
            (fun t => t.status == "In-Progress")).length) :: tail) := by
  subst htab
  constructor
  · intro t ht
    rcases List.mem_cons.mp ht with rfl | hmem
    · exact le_refl _
    · have hle : t.creationTime ≤ t0.creationTime :=
        (List.pairwise_cons.mp hsorted).1 t hmem
      rw [hderiv t ht, hderiv t0 (List.mem_cons_self _ _)]
      exact floorDay_mono hle
  · exact ⟨_, stat_block_success t0 rest vals h⟩

/-! ### Claim C9 -/

/-- C9 (amended): the returned day average is the integer truncation of
the number of completed tasks created on other dates than the current one
divided by the number of distinct creation dates of completed tasks other
than the current date — the mean of per-day completed counts over only
the dates that carry at least one completed task — and the month average
is the analogue over month-of-year groups (years merged).  The
truncation, the restriction to days/months having completed tasks, and
the year merging are what the amendment adds. -/
theorem stat_block_avgs_spec (tasks : List TaskRow) (t0 : TaskRow) (rest : List TaskRow)
    (htab : tasks = t0 :: rest) (vals : List Nat)
    (h : generate_stat_block_values tasks = Except.ok vals) :
    ∃ a b c, vals = [a, b, c,
      ((completedIn tasks).filter
          (fun t => decide (t.creationDate ≠ t0.creationDate))).length /
        ((completedDayKeys tasks).filter (fun k => decide (k ≠ t0.creationDate))).length,
      ((completedIn tasks).filter
          (fun t => decide (monthOf t.creationTime ≠ monthOf t0.creationDate))).length /
        ((completedMonthKeys tasks).filter
          (fun k => decide (k ≠ monthOf t0.creationDate))).length] := by
  subst htab
  have hv := stat_block_success t0 rest vals h
  refine ⟨(((t0 :: rest).filter (fun t => decide (t0.creationDate ≤ t.creationTime))).filter
      (fun t => t.status == "Completed")).length,
    (((t0 :: rest).filter (fun t => decide (t0.creationDate ≤ t.creationTime))).filter
        (fun t => t.status == "Waiting")).length +
      (((t0 :: rest).filter (fun t => decide (t0.creationDate ≤ t.creationTime))).filter
        (fun t => t.status == "In-Progress")).length,
    ((completedIn (t0 :: rest)).filter
        (fun t => decide (monthStartTs t0.creationDate ≤ t.creationTime))).length, ?_⟩
  rw [hv]
  unfold completedDayKeys completedMonthKeys
  rw [sum_group_counts_ne TaskRow.creationDate (completedIn (t0 :: rest)) t0.creationDate]
  rw [sum_group_counts_ne (fun t => monthOf t.creationTime) (completedIn (t0 :: rest))
    (monthOf t0.creationDate)]

/-- Row with chosen creation time and status; the creation date is the
derived day floor, as preprocessing guarantees. -/
def exStatRow (ct : Nat) (st : String) : TaskRow :=
  { mkDriverTask "A" with status := st, creationTime := ct, creationDate := floorDay ct }

/-- C9 counterexample table: completed tasks on 1970-01-01 (the current
date) and 1970-02-05, and a Waiting-only task on 1970-01-02. -/
def exStatTable : List TaskRow :=
  [exStatRow 0 "Completed", exStatRow 3024000 "Completed", exStatRow 86400 "Waiting"]

/-- Creation dates present in the table other than the current one — the
set the claim's day mean ranges over. -/
def exStatClaimDates : List Nat :=
  (uniqueFirst (exStatTable.map TaskRow.creationDate)).filter (fun k => decide (k ≠ 0))

/-- C9 counterexample: the claim's mean over every creation date in the
table except the current day is (1 + 0) / 2 = 1/2 — the date 1970-01-02
carries no completed task and counts as zero — but the code averages only
over dates of completed tasks and returns 1; moreover the returned scalar
is an integer, not the rational mean. -/
theorem stat_block_avgs_counterexample :
    generate_stat_block_values exStatTable = Except.ok [2, 1, 2, 1, 1] ∧
    ((exStatClaimDates.map (fun k => ((completedIn exStatTable).filter
        (fun t => t.creationDate == k)).length)).sum : ℚ) / (exStatClaimDates.length : ℚ)
      = 1 / 2 ∧
    ((1 : ℚ) ≠ 1 / 2) := by
  refine ⟨rfl, ?_, by norm_num⟩
  have h1 : (exStatClaimDates.map (fun k => ((completedIn exStatTable).filter
      (fun t => t.creationDate == k)).length)).sum = 1 := by rfl
  have h2 : exStatClaimDates.length = 2 := by rfl
  rw [h1, h2]
  norm_num

/-- C8/C9 witness table, newest first: completed on 1970-02-05 (row 0),
waiting on 1970-01-02, completed on 1970-01-01. -/
def exSortedTable : List TaskRow :=
  [exStatRow 3024000 "Completed", exStatRow 86400 "Waiting", exStatRow 0 "Completed"]

theorem stat_block_today_witness :
    List.Pairwise (fun a b => b.creationTime ≤ a.creationTime) exSortedTable ∧
    (∀ t ∈ exSortedTable, t.creationDate = floorDay t.creationTime) ∧
    generate_stat_block_values exSortedTable = Except.ok [1, 0, 1, 1, 1] ∧
    ((∀ t ∈ exSortedTable, t.creationDate ≤ (exStatRow 3024000 "Completed").creationDate) ∧
     (∃ tail, ([1, 0, 1, 1, 1] : List Nat) =
       ((exSortedTable.filter (fun t =>
            decide ((exStatRow 3024000 "Completed").creationDate ≤ t.creationTime))).filter
          (fun t => t.status == "Completed")).length ::
        (((exSortedTable.filter (fun t =>
              decide ((exStatRow 3024000 "Completed").creationDate ≤ t.creationTime))).filter
            (fun t => t.status == "Waiting")).length +
          ((exSortedTable.filter (fun t =>
              decide ((exStatRow 3024000 "Completed").creationDate ≤ t.creationTime))).filter
            (fun t => t.status == "In-Progress")).length) :: tail)) :=
  ⟨by decide, by decide, rfl,
    stat_block_today_spec exSortedTable (exStatRow 3024000 "Completed")
      [exStatRow 86400 "Waiting", exStatRow 0 "Completed"] rfl (by decide) (by decide)
      [1, 0, 1, 1, 1] rfl⟩

theorem stat_block_avgs_witness :
    generate_stat_block_values exSortedTable = Except.ok [1, 0, 1, 1, 1] ∧
    (∃ a b c, ([1, 0, 1, 1, 1] : List Nat) = [a, b, c,
      ((completedIn exSortedTable).filter (fun t =>
          decide (t.creationDate ≠ (exStatRow 3024000 "Completed").creationDate))).length /
        ((completedDayKeys exSortedTable).filter (fun k =>
          decide (k ≠ (exStatRow 3024000 "Completed").creationDate))).length,
      ((completedIn exSortedTable).filter (fun t =>
          decide (monthOf t.creationTime ≠
            monthOf (exStatRow 3024000 "Completed").creationDate))).length /
        ((completedMonthKeys exSortedTable).filter (fun k =>
          decide (k ≠ monthOf (exStatRow 3024000 "Completed").creationDate))).length]) :=
  ⟨rfl, stat_block_avgs_spec exSortedTable (exStatRow 3024000 "Completed")
    [exStatRow 86400 "Waiting", exStatRow 0 "Completed"] rfl [1, 0, 1, 1, 1] rfl⟩

/-! ### Claim C10 -/

/-- C10 (amended): the KPI computation returns its five scalars exactly
when the table is nonempty, some completed task shares the first row's
creation date, some completed task shares its month-of-year, some
completed task has a different creation date, and some completed task has
a different month-of-year.  The amendment: the two month conditions
compare month NUMBERS (the grouping merges the same calendar month of
different years), not actual year-months as the claim reads. -/
theorem stat_block_partiality (tasks : List TaskRow) :
    exOk (generate_stat_block_values tasks) = true ↔
      ∃ t0 rest, tasks = t0 :: rest ∧
        (∃ t ∈ completedIn tasks, t.creationDate = t0.creationDate) ∧
        (∃ t ∈ completedIn tasks, monthOf t.creationTime = monthOf t0.creationDate) ∧
        (∃ t ∈ completedIn tasks, t.creationDate ≠ t0.creationDate) ∧
        (∃ t ∈ completedIn tasks, monthOf t.creationTime ≠ monthOf t0.creationDate) := by
  cases tasks with
  | nil =>
    constructor
    · intro h
      simp [generate_stat_block_values, exOk] at h
    · rintro ⟨t0, rest, h, -⟩
      cases h
  | cons t0 rest =>
    have hraw : exOk (generate_stat_block_values (t0 :: rest)) = true ↔
        (t0.creationDate ∈ completedDayKeys (t0 :: rest) ∧
         monthOf t0.creationDate ∈ completedMonthKeys (t0 :: rest) ∧
         ¬((completedDayKeys (t0 :: rest)).filter
             (fun k => decide (k ≠ t0.creationDate)) = []) ∧
         ¬((completedMonthKeys (t0 :: rest)).filter
             (fun k => decide (k ≠ monthOf t0.creationDate)) = [])) := by
      unfold generate_stat_block_values
      dsimp only
      split_ifs with h1 h2 h3 h4 <;> simp_all [exOk]
    rw [hraw]
    constructor
    · rintro ⟨h1, h2, h3, h4⟩
      refine ⟨t0, rest, rfl, ?_, ?_, ?_, ?_⟩
      · exact List.mem_map.mp ((mem_uniqueFirst _ _).mp h1)
      · exact List.mem_map.mp ((mem_uniqueFirst _ _).mp h2)
      · obtain ⟨k, hk⟩ := List.exists_mem_of_ne_nil _ h3
        rw [List.mem_filter] at hk
        obtain ⟨t, ht, hteq⟩ := List.mem_map.mp ((mem_uniqueFirst _ _).mp hk.1)
        refine ⟨t, ht, ?_⟩
        rw [hteq]
        simpa using hk.2
      · obtain ⟨k, hk⟩ := List.exists_mem_of_ne_nil _ h4
        rw [List.mem_filter] at hk
        obtain ⟨t, ht, hteq⟩ := List.mem_map.mp ((mem_uniqueFirst _ _).mp hk.1)
        refine ⟨t, ht, ?_⟩
        rw [hteq]
        simpa using hk.2
    · rintro ⟨t0x, restx, heq, ⟨ta, hta, htaeq⟩, ⟨tb, htb, htbeq⟩,
        ⟨tc, htc, htceq⟩, ⟨td, htd, htdeq⟩⟩
      rw [List.cons.injEq] at heq
      obtain ⟨rfl, rfl⟩ := heq
      refine ⟨?_, ?_, ?_, ?_⟩
      · rw [← htaeq]
        exact (mem_uniqueFirst _ _).mpr (List.mem_map.mpr ⟨ta, hta, rfl⟩)
      · rw [← htbeq]
        exact (mem_uniqueFirst _ _).mpr (List.mem_map.mpr ⟨tb, htb, rfl⟩)
      · intro hcon
        have hmem : tc.creationDate ∈ (completedDayKeys (t0 :: rest)).filter
            (fun k => decide (k ≠ t0.creationDate)) := by
          rw [List.mem_filter]
          refine ⟨(mem_uniqueFirst _ _).mpr (List.mem_map.mpr ⟨tc, htc, rfl⟩), by simpa using htceq⟩
        rw [hcon] at hmem
        cases hmem
      · intro hcon
        have hmem : monthOf td.creationTime ∈ (completedMonthKeys (t0 :: rest)).filter
            (fun k => decide (k ≠ monthOf t0.creationDate)) := by
          rw [List.mem_filter]
          refine ⟨(mem_uniqueFirst _ _).mpr (List.mem_map.mpr ⟨td, htd, rfl⟩), by simpa using htdeq⟩
        rw [hcon] at hmem
        cases hmem

/-- Year of a timestamp, used to speak about actual year-months. -/
def yearOf (t : Nat) : Nat := (civilFromDays (t / 86400)).1

/-- C10 counterexample table, newest first: completed tasks on
2024-03-15 (the current day), 2024-03-10 (another day, same actual
month) and 2023-03-05 (a different actual month, same month number). -/
def exYearTable : List TaskRow :=
  [exStatRow 1710460800 "Completed", exStatRow 1710028800 "Completed",
   exStatRow 1677974400 "Completed"]

/-- C10 counterexample: the claim's conditions all hold — a task
completed on the current day, in the current month, on another day, and
in another (actual) month, namely March 2023 — yet the computation fails:
the month grouping keys are month numbers, all three rows share month 3,
so `.drop(current_month)` leaves no group and `int(NaN)` raises. -/
theorem stat_block_partiality_counterexample :
    (∃ t ∈ completedIn exYearTable, t.creationDate = 1710460800) ∧
    (∃ t ∈ completedIn exYearTable,
      yearOf t.creationTime = 2024 ∧ monthOf t.creationTime = 3) ∧
    (∃ t ∈ completedIn exYearTable, t.creationDate ≠ 1710460800) ∧
    (∃ t ∈ completedIn exYearTable,
      ¬(yearOf t.creationTime = 2024 ∧ monthOf t.creationTime = 3)) ∧
    exOk (generate_stat_block_values exYearTable) = false := by
  refine ⟨⟨exStatRow 1710460800 "Completed", by decide, by decide⟩,
    ⟨exStatRow 1710460800 "Completed", by decide, by decide, by decide⟩,
    ⟨exStatRow 1710028800 "Completed", by decide, by decide⟩,
    ⟨exStatRow 1677974400 "Completed", by decide, ?_⟩, by rfl⟩
  intro hcon
  have := hcon.1
  revert this
  decide
